import Mathlib

/- Shallow embedding of the usbwallet EIP-712 signing core:
   the type-expression resolver (data_type.go), the Family-A (Ledger)
   one-shot encoder and the Family-B (Trezor) interactive walker. -/

/-- Go `unicode.IsSpace` restricted to Latin-1, the only code points
`strings.TrimSpace` can remove from the strings considered here. -/
def goIsSpace (c : Char) : Bool :=
  decide (c.toNat = 32 ∨ (9 ≤ c.toNat ∧ c.toNat ≤ 13) ∨ c.toNat = 0x85 ∨ c.toNat = 0xA0)

/-- `strings.TrimSpace`: drop whitespace from both ends. -/
def trimSpace (cs : List Char) : List Char :=
  ((cs.dropWhile goIsSpace).reverse.dropWhile goIsSpace).reverse

/-- Value of a run of decimal digit characters (`strconv.Atoi` on an
all-digit string, with arbitrary precision). -/
def digitsToNat (ds : List Char) : Nat :=
  ds.foldl (fun acc c => acc * 10 + (c.toNat - 48)) 0

/-- Leftmost, non-overlapping matches of the Go regular expression
`\[(\d*)]`: each match's digit group, `none` when the group is empty.
The fuel argument (initially the string length) makes the scan
structurally recursive; every step consumes at least one character,
so the fuel never runs out. -/
def findArraysAux : Nat → List Char → List (Option Nat)
  | 0, _ => []
  | _ + 1, [] => []
  | fuel + 1, '[' :: rest =>
    let ds := rest.takeWhile Char.isDigit
    match rest.dropWhile Char.isDigit with
    | ']' :: tail =>
      (if ds.isEmpty then none else some (digitsToNat ds)) :: findArraysAux fuel tail
    | _ => findArraysAux fuel rest
  | fuel + 1, _ :: rest => findArraysAux fuel rest

/-- All `[N]` / `[]` groups appearing in a type expression, in order. -/
def findArrays (cs : List Char) : List (Option Nat) :=
  findArraysAux cs.length cs

/-- The Go regular expression `^(.+?)(\d*)$`: split into a (nonempty)
head and the maximal trailing digit run.  On the empty string Go's
`FindStringSubmatch` returns nil and indexing it panics; we return two
empty strings, which downstream turns into an unknown-type error. -/
def splitTrailingDigits (cs : List Char) : List Char × List Char :=
  let rds := cs.reverse.takeWhile Char.isDigit
  let pre := (cs.reverse.drop rds.length).reverse
  if pre.isEmpty then (cs.take 1, cs.drop 1) else (pre, rds.reverse)

/-- The `dataType` enumeration of data_type.go (iota order). -/
inductive DataType where
  | CustomType
  | IntType
  | UintType
  | AddressType
  | BoolType
  | StringType
  | FixedBytesType
  | BytesType
deriving DecidableEq, Repr

/-- Wire value of a `dataType` (its iota index). -/
def DataType.toByte : DataType → Nat
  | .CustomType => 0
  | .IntType => 1
  | .UintType => 2
  | .AddressType => 3
  | .BoolType => 4
  | .StringType => 5
  | .FixedBytesType => 6
  | .BytesType => 7

/-- The `nameToType` map of data_type.go. -/
def nameToType (s : String) : Option DataType :=
  if s = "int" then some .IntType
  else if s = "uint" then some .UintType
  else if s = "address" then some .AddressType
  else if s = "bool" then some .BoolType
  else if s = "string" then some .StringType
  else if s = "bytes" then some .BytesType
  else none

/-- Failures of `parseType`, named after the spec's taxonomy; they map
one-to-one onto the three `fmt.Errorf` messages in data_type.go. -/
inductive ParseErr where
  | unknownType
  | invalidLength
  | invalidType
deriving DecidableEq, Repr

/-- `apitypes.Type`: one field descriptor of a struct. -/
structure EipField where
  name : String
  type : String
deriving DecidableEq, Repr

/-- Primitive (leaf) values a typed-data document can carry, mirroring
the dynamic types the Go encoders switch on: `string`, `bool`,
`float64` (an integer-valued JSON number) and `*math.HexOrDecimal256`. -/
inductive PrimValue where
  | str (s : String)
  | boolean (b : Bool)
  | num (n : Int)
  | hexnum (n : Int)
deriving DecidableEq, Repr

/-- A typed-data value tree: primitive leaf, `[]interface{}` array or
`map[string]interface{}` struct value. -/
inductive TValue where
  | prim (p : PrimValue)
  | arr (elems : List TValue)
  | obj (fields : List (String × TValue))

/-- `apitypes.TypedData`: the caller-supplied document.  `types` is the
`Types` map as an association list (Go map iteration order is
unspecified; we fix declaration order), `domain` is the result of
`Domain.Map()`. -/
structure TypedData where
  types : List (String × List EipField)
  primaryType : String
  domain : List (String × TValue)
  message : List (String × TValue)

/-- `data.Types[name]`; `none` plays Go's nil slice for a missing key. -/
def lookupTypes (d : TypedData) (n : String) : Option (List EipField) :=
  d.types.lookup n

/-- Indexing a struct value map; `none` is Go's nil for a missing key. -/
def lookupVal (m : List (String × TValue)) (n : String) : Option TValue :=
  m.lookup n

/-- Result of `parseType`: `(dt, name, byteLength, arrayLevels)`. -/
structure ParsedType where
  dt : DataType
  name : String
  byteLength : Nat
  arrays : List (Option Nat)
deriving DecidableEq, Repr

/-- The width rules of data_type.go lines 64-87, applied to the base
kind and the trailing digit run: int/uint widths are digits/8 (32 when
absent), sized bytes keep the digit value, digits elsewhere are
invalid, address is fixed at 20, and any explicitly sized width outside
[1,32] is an invalid length. -/
def parseTypeWidth (dt0 : DataType) (ds : List Char) : Except ParseErr (DataType × Nat) :=
  if dt0 = .UintType ∨ dt0 = .IntType then
    if ds.isEmpty then .ok (dt0, 32)
    else if digitsToNat ds % 8 ≠ 0 then .error .invalidLength
    else if digitsToNat ds / 8 < 1 ∨ digitsToNat ds / 8 > 32 then .error .invalidLength
    else .ok (dt0, digitsToNat ds / 8)
  else if ds.isEmpty = false then
    if dt0 = .BytesType then
      if digitsToNat ds < 1 ∨ digitsToNat ds > 32 then .error .invalidLength
      else .ok (.FixedBytesType, digitsToNat ds)
    else .error .invalidType
  else if dt0 = .AddressType then .ok (.AddressType, 20)
  else .ok (dt0, 0)

/-- Classification of the array-stripped base name (data_type.go lines
49-87): a declared struct name is `CustomType`, otherwise split off
the trailing digit run, look the head up in `nameToType` and apply the
width rules. -/
def classifyBase (d : TypedData) (cs : List Char) (arrayLengths : List (Option Nat)) :
    Except ParseErr ParsedType :=
  match lookupTypes d ⟨cs⟩ with
  | some _ => .ok ⟨.CustomType, ⟨cs⟩, 0, arrayLengths⟩
  | none =>
    match nameToType ⟨(splitTrailingDigits cs).1⟩ with
    | none => .error .unknownType
    | some dt0 =>
      match parseTypeWidth dt0 (splitTrailingDigits cs).2 with
      | .error e => .error e
      | .ok (dt, bl) => .ok ⟨dt, ⟨(splitTrailingDigits cs).1⟩, bl, arrayLengths⟩

/-- `parseType` of data_type.go: trim, strip `[N]`/`[]` suffixes into
array levels (truncating the name at the first `[`), then classify the
base name. -/
def parseType (d : TypedData) (field : EipField) : Except ParseErr ParsedType :=
  let cs0 := trimSpace field.type.data
  let arrayLengths := findArrays cs0
  let cs := if arrayLengths.isEmpty then cs0 else cs0.takeWhile (fun c => c ≠ '[')
  classifyBase d cs arrayLengths

deriving instance DecidableEq for Except

/-- A document with no declared struct types, for resolver examples. -/
def emptyDoc : TypedData := ⟨[], "T", [], []⟩

/- ===== byte-level encoding helpers shared by both engines ===== -/

/-- UTF-8 encoding of one character (Go `[]byte(string)`). -/
def utf8Char (c : Char) : List Nat :=
  let n := c.toNat
  if n < 0x80 then [n]
  else if n < 0x800 then [0xC0 + n / 0x40, 0x80 + n % 0x40]
  else if n < 0x10000 then
    [0xE0 + n / 0x1000, 0x80 + n / 0x40 % 0x40, 0x80 + n % 0x40]
  else
    [0xF0 + n / 0x40000, 0x80 + n / 0x1000 % 0x40, 0x80 + n / 0x40 % 0x40, 0x80 + n % 0x40]

/-- UTF-8 bytes of a string (Go `[]byte(s)`). -/
def utf8Bytes (s : String) : List Nat :=
  (s.data.map utf8Char).flatten

/-- Minimal big-endian magnitude bytes of a natural number, fueled for
structural recursion (`big.Int.Bytes`, empty for zero).  The fuel is
the number itself, which bounds the digit count. -/
def natBytesBEAux : Nat → Nat → List Nat
  | 0, _ => []
  | _ + 1, 0 => []
  | fuel + 1, n => natBytesBEAux fuel (n / 256) ++ [n % 256]

/-- `big.Int.Bytes`: minimal big-endian magnitude, empty for zero. -/
def natBytesBE (n : Nat) : List Nat :=
  natBytesBEAux n n

/-- Magnitude bytes of an integer (`big.Int.Bytes` ignores the sign). -/
def intMagBytes (n : Int) : List Nat :=
  natBytesBE n.natAbs

/-- `binary.BigEndian.AppendUint16` of `uint16(n)`. -/
def uint16BE (n : Nat) : List Nat :=
  [n % 65536 / 256, n % 256]

/-- `binary.BigEndian.PutUint32` of `uint32(n)`. -/
def uint32BE (n : Nat) : List Nat :=
  [n % 4294967296 / 16777216, n / 65536 % 256, n / 256 % 256, n % 256]

/-- Value of one hexadecimal digit character, as in Go's hex package. -/
def hexDigitVal (c : Char) : Option Nat :=
  if '0' ≤ c ∧ c ≤ '9' then some (c.toNat - 48)
  else if 'a' ≤ c ∧ c ≤ 'f' then some (c.toNat - 97 + 10)
  else if 'A' ≤ c ∧ c ≤ 'F' then some (c.toNat - 65 + 10)
  else none

/-- `hex.DecodeString`: strict, fails on an odd length or a non-hex
digit. -/
def hexDecodeStrictL : List Char → Option (List Nat)
  | [] => some []
  | a :: b :: rest =>
    match hexDigitVal a, hexDigitVal b with
    | some x, some y => (hexDecodeStrictL rest).map ((16 * x + y) :: ·)
    | _, _ => none
  | [_] => none

/-- `common.Hex2Bytes`: decode pairs and silently stop at the first
invalid pair or lone trailing digit (the Go code drops the error). -/
def hex2Bytes : List Char → List Nat
  | [] => []
  | a :: b :: rest =>
    match hexDigitVal a, hexDigitVal b with
    | some x, some y => (16 * x + y) :: hex2Bytes rest
    | _, _ => []
  | [_] => []

/-- First step of `common.FromHex`: strip an optional `0x`/`0X`. -/
def stripHexPrefix (cs : List Char) : List Char :=
  if cs.take 2 = ['0', 'x'] ∨ cs.take 2 = ['0', 'X'] then cs.drop 2 else cs

/-- Second step of `common.FromHex`: left-pad an odd length with `0`. -/
def padOdd (cs : List Char) : List Char :=
  if cs.length % 2 = 1 then '0' :: cs else cs

/-- `common.FromHex`: strip an optional `0x`/`0X`, left-pad an odd
length with `0`, then decode leniently. -/
def fromHexL (cs : List Char) : List Nat :=
  hex2Bytes (padOdd (stripHexPrefix cs))

/-- `common.FromHex` on a string value. -/
def fromHex (s : String) : List Nat :=
  fromHexL s.data

/- ===== Family A (Ledger): firmware gate, envelope, encoder ===== -/

/-- Outcome of the precondition checks shared by `ledgerDriver.SignText`
and `ledgerDriver.SignedTypedData`. -/
inductive LedgerGateOutcome where
  | closedDevice
  | unsupportedFirmware
  | proceed
deriving DecidableEq, Repr

/-- The precondition block of `SignText`/`SignedTypedData`: abort when
the app is offline, then apply the literal firmware check
`version[0] < 1 && version[1] < 5` from the source. -/
def ledgerSignGate (offline : Bool) (version : Nat × Nat × Nat) : LedgerGateOutcome :=
  if offline then .closedDevice
  else if version.1 < 1 ∧ version.2.1 < 5 then .unsupportedFirmware
  else .proceed

/-- Lexicographic order on 3-component firmware versions; the spec's
reading of "strictly below 1.5.0". -/
def versionLtLex (a b : Nat × Nat × Nat) : Prop :=
  a.1 < b.1 ∨ (a.1 = b.1 ∧ (a.2.1 < b.2.1 ∨ (a.2.1 = b.2.1 ∧ a.2.2 < b.2.2)))

instance (a b : Nat × Nat × Nat) : Decidable (versionLtLex a b) := by
  unfold versionLtLex; infer_instance

/-- Errors of the Family-A engine. -/
inductive LedgerErr where
  | domainTypeMissing
  | primaryTypeMissing
  | parseFailure (e : ParseErr)
  | nilValue
  | expectedArrayValue
  | expectedStructValue
  | unsupportedValueType
  | invalidStringValue
  | badHexString
  | invalidSignatureLength
  | outOfFuel
deriving DecidableEq, Repr

/-- One APDU exchange request: opcode, the two parameters and payload. -/
structure Msg where
  op : Nat
  p1 : Nat
  p2 : Nat
  payload : List Nat
deriving DecidableEq, Repr

/-- Signature envelope validation shared by both Ledger signing paths:
a reply must be exactly 65 bytes `[v, r, s]` and is returned
left-rotated by one byte, `append(reply[1:], reply[0])`. -/
def ledgerFinalizeSig (reply : List Nat) : Except LedgerErr (List Nat) :=
  if reply.length = 65 then .ok (reply.drop 1 ++ reply.take 1)
  else .error .invalidSignatureLength

/-- The primitive-leaf encoder inside `sendValue` (part_000 lines
237-268): strings are UTF-8 when the type is `string` and strictly
decoded `0x` hex otherwise, booleans one byte, numerics minimal
big-endian magnitude bytes. -/
def ledgerLeafEnc (t : String) (v : PrimValue) : Except LedgerErr (List Nat) :=
  match v with
  | .str s =>
    if t = "string" then .ok (utf8Bytes s)
    else if s.data.take 2 = ['0', 'x'] then
      match hexDecodeStrictL (s.data.drop 2) with
      | some bs => .ok bs
      | none => .error .badHexString
    else .error .invalidStringValue
  | .boolean b => .ok (if b then [1] else [0])
  | .num n => .ok (intMagBytes n)
  | .hexnum n => .ok (intMagBytes n)

/-- Does the type expression end in `]` (`strings.HasSuffix(t, "]")`)? -/
def endsWithBracket (t : String) : Bool :=
  t.data.getLast? = some ']'

/-- `t[:strings.LastIndex(t, "[")]`: drop the last `[...]` suffix. -/
def stripLastDim (t : String) : String :=
  ⟨((t.data.reverse.dropWhile (fun c => c ≠ '[')).drop 1).reverse⟩

/-- Work items of the recursive `sendValue` of part_000: a single
`(type, value)` pair, the elements of an array, or the declared fields
of a struct paired with the value map. -/
inductive SendJob where
  | one (t : String) (v : Option TValue)
  | elems (t : String) (vs : List TValue)
  | fields (fs : List EipField) (m : List (String × TValue))

/-- Sequence two emission results: keep the first error and the
messages already sent before it (Go returns early but the earlier
exchanges have happened). -/
def seqSend : Except LedgerErr Unit × List Msg → (Except LedgerErr Unit × List Msg) →
    Except LedgerErr Unit × List Msg
  | (.error e, ms), _ => (.error e, ms)
  | (.ok _, ms), (r, ms2) => (r, ms ++ ms2)

/-- The recursive value emission of `sendValue` (part_000 lines
202-276), returning the trace of exchanges.  An array type sends a
1-byte element-count message (P2 = 0x0f) and recurses per element with
the last dimension stripped; a declared struct recurses through its
fields in order; a primitive leaf sends its encoding behind a 2-byte
big-endian length (P2 = 0xff).  The fuel only bounds recursion depth;
each recursive call strips one type or list constructor, so any fuel
above the document depth is equivalent. -/
def sendGo (d : TypedData) : Nat → SendJob → Except LedgerErr Unit × List Msg
  | 0, _ => (.error .outOfFuel, [])
  | _ + 1, .one _ none => (.error .nilValue, [])
  | fuel + 1, .one t (some v) =>
    if endsWithBracket t then
      match v with
      | .arr xs =>
        let lenMsg : Msg := ⟨0x1c, 0x00, 0x0f, [xs.length % 256]⟩
        let (r, ms) := sendGo d fuel (.elems (stripLastDim t) xs)
        (r, lenMsg :: ms)
      | _ => (.error .expectedArrayValue, [])
    else
      match lookupTypes d t with
      | some fs =>
        match v with
        | .obj m => sendGo d fuel (.fields fs m)
        | _ => (.error .expectedStructValue, [])
      | none =>
        match v with
        | .prim p =>
          match ledgerLeafEnc t p with
          | .error e => (.error e, [])
          | .ok enc => (.ok (), [⟨0x1c, 0x00, 0xff, uint16BE enc.length ++ enc⟩])
        | _ => (.error .unsupportedValueType, [])
  | _ + 1, .elems _ [] => (.ok (), [])
  | fuel + 1, .elems t (x :: xs) =>
    seqSend (sendGo d fuel (.one t (some x))) (sendGo d fuel (.elems t xs))
  | _ + 1, .fields [] _ => (.ok (), [])
  | fuel + 1, .fields (f :: fs) m =>
    seqSend (sendGo d fuel (.one f.type (lookupVal m f.name))) (sendGo d fuel (.fields fs m))

/-- Entry point for emitting one root value, with fuel from the
document size. -/
def sendValueRun (d : TypedData) (fuel : Nat) (t : String) (v : TValue) :
    Except LedgerErr Unit × List Msg :=
  sendGo d fuel (.one t (some v))

/-- The `sendField` payload of part_000 lines 160-197: a descriptor
byte (kind, plus 0x40 when a width byte follows and 0x80 when array
levels follow), optional length-prefixed custom-type name, optional
width byte, optional array-level block and the length-prefixed field
name. -/
def sendFieldPayload (d : TypedData) (f : EipField) : Except ParseErr (List Nat) :=
  match parseType d f with
  | .error e => .error e
  | .ok pt =>
    let withSize := pt.dt = .IntType ∨ pt.dt = .UintType ∨ pt.dt = .FixedBytesType
    let typeDesc := pt.dt.toByte +
      (if withSize then 0x40 else 0) + (if pt.arrays.isEmpty then 0 else 0x80)
    let typeName :=
      if pt.dt = .CustomType then
        (utf8Bytes pt.name).length % 256 :: utf8Bytes pt.name
      else []
    let typeSize := if withSize then [pt.byteLength % 256] else []
    let arrayLevels :=
      if pt.arrays.isEmpty then []
      else pt.arrays.length % 256 ::
        (pt.arrays.map (fun l => match l with
          | none => [0]
          | some n => [1, n % 256])).flatten
    .ok (typeDesc :: typeName ++ typeSize ++ arrayLevels ++
      ((utf8Bytes f.name).length % 256 :: utf8Bytes f.name))

/-- Phase-1 field messages for one struct, one struct-field message
(P2 = 0xff) per declared field; a parse error aborts before that
field's exchange. -/
def sendStructFields (d : TypedData) : List EipField → Except LedgerErr Unit × List Msg
  | [] => (.ok (), [])
  | f :: rest =>
    match sendFieldPayload d f with
    | .error e => (.error (.parseFailure e), [])
    | .ok payload => seqSend (.ok (), [⟨0x1a, 0x00, 0xff, payload⟩]) (sendStructFields d rest)

/-- Phase 1 for one struct: a struct-name message (P2 = 0x00) followed
by its field messages. -/
def sendStructDef (d : TypedData) (n : String) (fs : List EipField) :
    Except LedgerErr Unit × List Msg :=
  seqSend (.ok (), [⟨0x1a, 0x00, 0x00, utf8Bytes n⟩]) (sendStructFields d fs)

/-- Phase 1 over every declared struct (Go ranges over the `Types` map
in unspecified order; we fix declaration order). -/
def sendAllStructDefs (d : TypedData) : List (String × List EipField) →
    Except LedgerErr Unit × List Msg
  | [] => (.ok (), [])
  | (n, fs) :: rest => seqSend (sendStructDef d n fs) (sendAllStructDefs d rest)

/-- `ledgerDriver.ledgerSignTypedData` (part_000 lines 148-326) against
a device whose intermediate exchanges succeed and whose reply to the
final signing request is `finalReply`: check `EIP712Domain` and the
primary type are declared before anything is sent, upload all struct
definitions, send the two root-struct markers and value trees, then
the signing request, and validate/rotate the 65-byte reply.  Returns
the outcome and the full exchange trace. -/
def ledgerSignTypedDataRun (d : TypedData) (path : List Nat) (fuel : Nat)
    (finalReply : List Nat) : Except LedgerErr (List Nat) × List Msg :=
  match lookupTypes d "EIP712Domain" with
  | none => (.error .domainTypeMissing, [])
  | some _ =>
    match lookupTypes d d.primaryType with
    | none => (.error .primaryTypeMissing, [])
    | some _ =>
      let defs := sendAllStructDefs d d.types
      match defs with
      | (.error e, ms) => (.error e, ms)
      | (.ok _, ms) =>
        let domRoot : Msg := ⟨0x1c, 0x00, 0x00, utf8Bytes "EIP712Domain"⟩
        match sendValueRun d fuel "EIP712Domain" (.obj d.domain) with
        | (.error e, ms2) => (.error e, ms ++ domRoot :: ms2)
        | (.ok _, ms2) =>
          let primRoot : Msg := ⟨0x1c, 0x00, 0x00, utf8Bytes d.primaryType⟩
          match sendValueRun d fuel d.primaryType (.obj d.message) with
          | (.error e, ms3) => (.error e, ms ++ domRoot :: ms2 ++ primRoot :: ms3)
          | (.ok _, ms3) =>
            let signPayload := path.length % 256 :: (path.map uint32BE).flatten
            let signMsg : Msg := ⟨0x0c, 0x00, 0x01, signPayload⟩
            (ledgerFinalizeSig finalReply,
              ms ++ domRoot :: ms2 ++ primRoot :: ms3 ++ [signMsg])

/-- `ledgerDriver.ledgerSignPersonalMessage` (part_000 lines 88-118)
with the device reply given: flatten the path and message into the
payload, then validate/rotate the signature envelope. -/
def ledgerSignPersonalMessageRun (path : List Nat) (text : List Nat)
    (reply : List Nat) : Except LedgerErr (List Nat) × List Msg :=
  let payload := path.length % 256 :: (path.map uint32BE).flatten ++
    uint32BE text.length ++ text
  (ledgerFinalizeSig reply, [⟨0x08, 0x00, 0x00, payload⟩])

/- ===== Family B (Trezor): interactive walker ===== -/

/-- Failure codes a Trezor device can report; the walker only
distinguishes the firmware-limitation code. -/
inductive TrezorFailCode where
  | firmwareError
  | otherCode (n : Nat)
deriving DecidableEq, Repr

/-- Errors of the Family-B engine.  The two `panic` constructors mark
places where the Go code would crash (indexing an empty member path,
calling `reflect.TypeOf` on a nil value) rather than return an error. -/
inductive TrezorErr where
  | noStructType
  | invalidFieldIndex
  | invalidArrayIndex
  | expectedArrayValue
  | expectedMapValue
  | parseFailure (e : ParseErr)
  | cannotEncodeCustom
  | valueTooLong
  | expectedBoolValue
  | expectedStringValue
  | expectedBytesValue
  | panicIndexOutOfRange
  | panicNilValue
  | schemaNoFields (n : String)
  | deviceFailure (code : Option TrezorFailCode)
  | nestedArraysUnsupported
  | otherTransportError
  | unexpectedReplyIndex (n : Nat)
  | scriptExhausted
  | walletClosed
  | outOfFuel
deriving DecidableEq, Repr

/-- Raw bytes the numeric branch of the terminal encoding extracts
from a value: lenient hex for a string, magnitude bytes for a number.
A value of any other dynamic type leaves the Go `value` slice nil,
modelled as the empty list. -/
def trezorNumericBytes (v : TValue) : List Nat :=
  match v with
  | .prim (.str s) => fromHex s
  | .prim (.num n) => intMagBytes n
  | _ => []

/-- The terminal primitive encoding of the value-query handler
(part_001 lines 179-216): numeric kinds reject overlong values and
left-pad their raw bytes with zeros to the declared byte width; bool
is one byte; string is raw UTF-8; dynamic bytes decode lenient hex. -/
def trezorLeafEnc (dt : DataType) (byteLength : Nat) (v : TValue) :
    Except TrezorErr (List Nat) :=
  match dt with
  | .CustomType => .error .cannotEncodeCustom
  | .IntType | .UintType | .AddressType | .FixedBytesType =>
    if (trezorNumericBytes v).length > byteLength then .error .valueTooLong
    else .ok (List.replicate (byteLength - (trezorNumericBytes v).length) 0 ++
      trezorNumericBytes v)
  | .BoolType =>
    match v with
    | .prim (.boolean b) => .ok (if b then [1] else [0])
    | _ => .error .expectedBoolValue
  | .StringType =>
    match v with
    | .prim (.str s) => .ok (utf8Bytes s)
    | _ => .error .expectedStringValue
  | .BytesType =>
    match v with
    | .prim (.str s) => .ok (fromHex s)
    | _ => .error .expectedBytesValue

/-- The inner descent loop of the value-query handler (part_001 lines
155-166): while array dimensions and path indices remain, require an
array value, bound-check the next index and select that element.
Returns the value reached, the unconsumed path and the number of
element descents performed. -/
def descendArrays : Nat → Option TValue → List Nat → Nat →
    Except TrezorErr (Option TValue × List Nat × Nat)
  | 0, v, rest, cnt => .ok (v, rest, cnt)
  | _ + 1, v, [], cnt => .ok (v, [], cnt)
  | dims + 1, v, q :: rest, cnt =>
    match v with
    | none => .error .panicNilValue
    | some (.arr xs) =>
      if h : q < xs.length then descendArrays dims (some xs[q]) rest (cnt + 1)
      else .error .invalidArrayIndex
    | some _ => .error .expectedArrayValue

/-- The outer index loop of the value-query handler (part_001 lines
138-218), one call per struct-field index: look the field up by
declared position, parse its type (recording the nested-array flag
when it has more than one array dimension), descend arrays while path
remains, then either recurse into a struct value, reply with an
array's element count as 2 big-endian bytes, or encode the primitive
leaf.  Returns the reply bytes, the nested-array flag and the total
number of element descents.  Each call consumes at least one path
index, so fuel `path.length + 1` never runs out. -/
def walkFields : Nat → TypedData → Option (List EipField) → List (String × TValue) →
    Nat → List Nat → Bool → Nat → Except TrezorErr (List Nat × Bool × Nat)
  | 0, _, _, _, _, _, _, _ => .error .outOfFuel
  | fuel + 1, d, st, sv, p, rest, nested, descents =>
    match st with
    | none => .error .noStructType
    | some fields =>
      if hp : p < fields.length then
        let field := fields[p]
        let nextValue := lookupVal sv field.name
        match parseType d field with
        | .error e => .error (.parseFailure e)
        | .ok pt =>
          let nested := nested || decide (pt.arrays.length > 1)
          match descendArrays pt.arrays.length nextValue rest 0 with
          | .error e => .error e
          | .ok (v, rest2, cnt) =>
            match rest2 with
            | [] =>
              match v with
              | none => .error .panicNilValue
              | some (.arr xs) => .ok (uint16BE xs.length, nested, descents + cnt)
              | some tv =>
                match trezorLeafEnc pt.dt pt.byteLength tv with
                | .error e => .error e
                | .ok bs => .ok (bs, nested, descents + cnt)
            | q :: rest3 =>
              match v with
              | none => .error .panicNilValue
              | some (.obj m) =>
                walkFields fuel d (lookupTypes d pt.name) m q rest3 nested (descents + cnt)
              | some _ => .error .expectedMapValue
      else .error .invalidFieldIndex

/-- The value-query handler (part_001 lines 129-221): index 0 of the
member path selects the domain, anything else the primary-type
message; the remaining indices drive `walkFields`.  A path of length 1
replies with the nil value.  The Go code indexes `MemberPath[0]`
without a length guard: an empty path is a panic, not an error reply. -/
def resolveValueQuery (d : TypedData) (path : List Nat) :
    Except TrezorErr (List Nat × Bool × Nat) :=
  match path with
  | [] => .error .panicIndexOutOfRange
  | p0 :: rest =>
    let st := if p0 = 0 then lookupTypes d "EIP712Domain" else lookupTypes d d.primaryType
    let sv := if p0 = 0 then d.domain else d.message
    match rest with
    | [] => .ok ([], false, 0)
    | q :: rest2 => walkFields (rest.length + 1) d st sv q rest2 false 0

/-- Device vocabulary of field kinds in a struct-type acknowledgement. -/
inductive TrezorDataType where
  | ARRAY
  | STRUCT
  | INT
  | UINT
  | ADDRESS
  | BOOL
  | STRING
  | BYTES
deriving DecidableEq, Repr

/-- `EthereumTypedDataStructAck_EthereumFieldType`: a field-type tree
with optional size, struct name and element type. -/
inductive FieldTypeTree where
  | node (dataType : TrezorDataType) (size : Option Nat) (structName : Option String)
    (entry : Option FieldTypeTree)

/-- Wrap a base field type in `ARRAY` nodes, one per dimension; the Go
loop iterates the parsed dimensions from last to first, so the
outermost `ARRAY` node carries the last-written dimension. -/
def wrapArrays (base : FieldTypeTree) : List (Option Nat) → FieldTypeTree
  | [] => base
  | dim :: rest => .node .ARRAY dim none (some (wrapArrays base rest))

/-- The per-field translation of the struct-type-query handler
(part_001 lines 80-126): parse the type, classify it into the device
vocabulary with width/member-count hints, and wrap with `ARRAY` nodes. -/
def trezorFieldType (d : TypedData) (f : EipField) : Except ParseErr FieldTypeTree :=
  match parseType d f with
  | .error e => .error e
  | .ok pt =>
    let base : FieldTypeTree :=
      match pt.dt with
      | .CustomType =>
        .node .STRUCT (some ((lookupTypes d pt.name).getD []).length) (some pt.name) none
      | .IntType => .node .INT (some pt.byteLength) none none
      | .UintType => .node .UINT (some pt.byteLength) none none
      | .AddressType => .node .ADDRESS none none none
      | .BoolType => .node .BOOL none none none
      | .StringType => .node .STRING none none none
      | .FixedBytesType => .node .BYTES (some pt.byteLength) none none
      | .BytesType => .node .BYTES none none none
    .ok (wrapArrays base pt.arrays.reverse)

/-- The member list of a struct-type acknowledgement, in declared
order; the first parse failure aborts. -/
def buildStructAck (d : TypedData) : List EipField →
    Except ParseErr (List (String × FieldTypeTree))
  | [] => .ok []
  | f :: rest =>
    match trezorFieldType d f with
    | .error e => .error e
    | .ok t =>
      match buildStructAck d rest with
      | .error e => .error e
      | .ok ms => .ok ((f.name, t) :: ms)

/-- One device response in the interactive protocol: the decoded reply
kind of `trezorExchange` (signature, struct-type query, value query)
or an exchange failure. -/
inductive TResp where
  | sig (s : List Nat)
  | structQ (n : String)
  | valueQ (path : List Nat)
  | failMsg (code : Option TrezorFailCode)
  | errOther

/-- The interactive loop of `trezorDriver.SignedTypedData` (part_001
lines 55-225) against a script of device responses, returning the
outcome and the number of exchanges performed.  A reported failure is
upgraded to the nested-arrays error exactly when the flag from the
preceding iteration is set and the code is the firmware limitation;
the flag is cleared after every successful exchange and recomputed by
a value query.  A terminal signature is returned as received, without
length validation or rotation. -/
def trezorLoop (d : TypedData) : List TResp → Bool → Except TrezorErr (List Nat) × Nat
  | [], _ => (.error .scriptExhausted, 0)
  | resp :: rest, nested =>
    match resp with
    | .failMsg code =>
      if nested ∧ code = some .firmwareError then (.error .nestedArraysUnsupported, 1)
      else (.error (.deviceFailure code), 1)
    | .errOther => (.error .otherTransportError, 1)
    | .sig s => (.ok s, 1)
    | .structQ n =>
      match (lookupTypes d n).getD [] with
      | [] => (.error (.schemaNoFields n), 1)
      | f :: fs =>
        match buildStructAck d (f :: fs) with
        | .error e => (.error (.parseFailure e), 1)
        | .ok _ =>
          let (r, c) := trezorLoop d rest false
          (r, c + 1)
    | .valueQ path =>
      match resolveValueQuery d path with
      | .error e => (.error e, 1)
      | .ok (_, nf, _) =>
        let (r, c) := trezorLoop d rest nf
        (r, c + 1)

/-- Outcome of `trezorDriver.SignedTypedData`. -/
inductive TrezorSignOutcome where
  | closedDevice
  | legacy (domainHash messageHash : List Nat)
  | interactive (r : Except TrezorErr (List Nat)) (exchanges : Nat)
deriving DecidableEq, Repr

/-- `trezorDriver.SignedTypedData` (part_001 lines 32-226): abort on a
nil device, compute the EIP-712 digest (modelled as the abstract
66-byte input `digest`), slice `hashes[2:34]` and `hashes[34:66]`, and
on major firmware version 1 invoke the plain hash-signing fallback
with exactly those sub-ranges; otherwise run the interactive loop. -/
def trezorSignedTypedData (deviceNil : Bool) (version : Nat × Nat × Nat)
    (digest : List Nat) (d : TypedData) (script : List TResp) : TrezorSignOutcome :=
  if deviceNil then .closedDevice
  else
    let domainHash := (digest.drop 2).take 32
    let messageHash := (digest.drop 34).take 32
    if version.1 = 1 then .legacy domainHash messageHash
    else
      let (r, c) := trezorLoop d script false
      .interactive r c

/-- `trezorDriver.SignText` (part_001 lines 17-30): the device's
signature bytes are returned as received. -/
def trezorSignTextRun (deviceNil : Bool) (respSignature : List Nat) :
    Except TrezorErr (List Nat) :=
  if deviceNil then .error .walletClosed
  else .ok respSignature

/- ===== concrete documents used in the theorems ===== -/

/-- The spec's example document `Mail{from:string, to:string}` with the
message `{from:"x", to:"y"}`. -/
def mailDoc : TypedData :=
  ⟨[("EIP712Domain", [⟨"name", "string"⟩]),
    ("Mail", [⟨"from", "string"⟩, ⟨"to", "string"⟩])],
   "Mail",
   [("name", .prim (.str "d"))],
   [("from", .prim (.str "x")), ("to", .prim (.str "y"))]⟩

/-- Document for the Family-A emission example: primary struct
`{a:uint8, b:string}` with value `{a:5, b:"hi"}`. -/
def fieldPairDoc : TypedData :=
  ⟨[("EIP712Domain", [⟨"name", "string"⟩]),
    ("T", [⟨"a", "uint8"⟩, ⟨"b", "string"⟩])],
   "T",
   [("name", .prim (.str "d"))],
   [("a", .prim (.num 5)), ("b", .prim (.str "hi"))]⟩

/-- Document whose single message field is a dynamic array with the
given elements. -/
def arrDoc (xs : List TValue) : TypedData :=
  ⟨[("EIP712Domain", [⟨"name", "string"⟩]), ("M", [⟨"a", "uint8[]"⟩])],
   "M",
   [("name", .prim (.str "d"))],
   [("a", .arr xs)]⟩

/-- Document with a two-dimensional array field `a : uint8[1][1]` whose
value is `[[5]]`. -/
def nestedArrDoc : TypedData :=
  ⟨[("EIP712Domain", [⟨"name", "string"⟩]), ("M", [⟨"a", "uint8[1][1]"⟩])],
   "M",
   [("name", .prim (.str "d"))],
   [("a", .arr [.arr [.prim (.num 5)]])]⟩

/-- Document declaring `EIP712Domain` but not its own primary type. -/
def noPrimaryDoc : TypedData :=
  ⟨[("EIP712Domain", [⟨"name", "string"⟩])], "Ghost",
   [("name", .prim (.str "d"))], []⟩

/- ===== helper lemmas ===== -/

/-- `nameToType` only yields the six primitive base kinds. -/
theorem nameToType_range (s : String) (dt : DataType) (h : nameToType s = some dt) :
    dt ≠ .CustomType ∧ dt ≠ .FixedBytesType := by
  unfold nameToType at h
  split_ifs at h <;> cases h <;> decide

/-- Any explicitly sized width that survives the width rules lies in
[1,32], and an int/uint without digits gets width 32. -/
theorem parseTypeWidth_bounds (dt0 : DataType) (ds : List Char) (dt : DataType) (bl : Nat)
    (h : parseTypeWidth dt0 ds = .ok (dt, bl))
    (hdt : dt = .IntType ∨ dt = .UintType ∨ dt = .FixedBytesType)
    (hd0 : dt0 ≠ .CustomType ∧ dt0 ≠ .FixedBytesType) :
    1 ≤ bl ∧ bl ≤ 32 := by
  unfold parseTypeWidth at h
  split_ifs at h <;> simp_all <;> omega

/-- A successful base classification with a sized result kind has its
byte width in [1,32]. -/
theorem classifyBase_sized_bounds (d : TypedData) (cs : List Char)
    (al : List (Option Nat)) (pt : ParsedType) (h : classifyBase d cs al = .ok pt)
    (hdt : pt.dt = .IntType ∨ pt.dt = .UintType ∨ pt.dt = .FixedBytesType) :
    1 ≤ pt.byteLength ∧ pt.byteLength ≤ 32 := by
  unfold classifyBase at h
  split at h
  · cases h; simp_all
  · split at h
    · cases h
    · split at h
      · cases h
      · rename_i xl hlook xn dt0 hname xw dt bl hw
        cases h
        exact parseTypeWidth_bounds dt0 _ dt bl hw hdt (nameToType_range _ _ hname)

/-- A strict hex decode succeeds only on an even number of digits. -/
theorem hexDecodeStrictL_even : ∀ (cs : List Char) (bs : List Nat),
    hexDecodeStrictL cs = some bs → cs.length % 2 = 0
  | [], _, _ => rfl
  | [_], _, h => by simp [hexDecodeStrictL] at h
  | _ :: _ :: rest, bs, h => by
    unfold hexDecodeStrictL at h
    split at h
    · rcases Option.map_eq_some'.mp h with ⟨bs2, hbs2, _⟩
      have := hexDecodeStrictL_even rest bs2 hbs2
      simp [List.length_cons]
      omega
    · exact absurd h (by simp)

/-- Where the strict decoder succeeds, the lenient pair decoder agrees. -/
theorem hex2Bytes_of_strict : ∀ (cs : List Char) (bs : List Nat),
    hexDecodeStrictL cs = some bs → hex2Bytes cs = bs
  | [], bs, h => by
    simp only [hexDecodeStrictL, Option.some.injEq] at h
    simp [hex2Bytes, h]
  | [_], bs, h => by simp [hexDecodeStrictL] at h
  | a :: b :: rest, bs, h => by
    unfold hexDecodeStrictL at h
    unfold hex2Bytes
    split at h
    · rcases Option.map_eq_some'.mp h with ⟨bs2, hbs2, hcons⟩
      rw [hex2Bytes_of_strict rest bs2 hbs2]
      exact hcons
    · exact absurd h (by simp)





/- ===== claim theorems ===== -/

/-- C1: the firmware gate of Family-A `SignText`/`SignedTypedData`, as
written in the source (`version[0] < 1 && version[1] < 5`), does not
implement the "below 1.5.0" minimum announced by its own error
message: versions 1.4.0 and 0.7.0 are strictly below 1.5.0 yet pass
the gate and proceed to the protocol; the conjunction only trips for
versions with both major below 1 and minor below 5, such as 0.4.9. -/
theorem ledger_firmware_gate_divergence :
    ledgerSignGate false (1, 4, 0) = .proceed ∧
    versionLtLex (1, 4, 0) (1, 5, 0) ∧
    ledgerSignGate false (0, 7, 0) = .proceed ∧
    versionLtLex (0, 7, 0) (1, 5, 0) ∧
    ledgerSignGate false (0, 4, 9) = .unsupportedFirmware := by decide

/-- C2 counterexample: the Family-B walker returns a terminal
signature exactly as the device sent it — a 3-byte reply is returned
successfully instead of raising a protocol error, and a 65-byte reply
is returned without the left-rotation. -/
theorem trezor_signature_unrotated_cex :
    trezorSignedTypedData false (2, 0, 0) (List.replicate 66 0) mailDoc [.sig [1, 2, 3]] =
      .interactive (.ok [1, 2, 3]) 1 ∧
    ([1, 2, 3] : List Nat).length ≠ 65 ∧
    trezorSignedTypedData false (2, 0, 0) (List.replicate 66 0) mailDoc
        [.sig (List.range 65)] = .interactive (.ok (List.range 65)) 1 ∧
    List.range 65 ≠ (List.range 65).drop 1 ++ (List.range 65).take 1 := by decide

/-- C2 amended: only Family A validates the 65-byte envelope and
left-rotates `[v, r, s]` to `[r, s, v]` (in both its signing
operations, which share `ledgerFinalizeSig`); Family B returns the
device-provided signature bytes unchanged, with no length check, in
both its typed-data and plain-text paths. -/
theorem signature_envelope_amended :
    (∀ reply : List Nat, reply.length = 65 →
      ledgerFinalizeSig reply = .ok (reply.drop 1 ++ reply.take 1)) ∧
    (∀ reply : List Nat, reply.length ≠ 65 →
      ledgerFinalizeSig reply = .error .invalidSignatureLength) ∧
    (∀ path text reply : List Nat,
      (ledgerSignPersonalMessageRun path text reply).1 = ledgerFinalizeSig reply) ∧
    (∀ (d : TypedData) (s : List Nat) (rest : List TResp) (b : Bool),
      trezorLoop d (.sig s :: rest) b = (.ok s, 1)) ∧
    (∀ s : List Nat, trezorSignTextRun false s = .ok s) := by
  refine ⟨?_, ?_, fun _ _ _ => rfl, fun _ _ _ _ => rfl, fun _ => rfl⟩
  · intro r h
    simp [ledgerFinalizeSig, h]
  · intro r h
    simp [ledgerFinalizeSig, h]

/-- C2 amended, witness at concrete inputs. -/
theorem signature_envelope_amended_witness :
    ledgerFinalizeSig (List.range 65) =
      .ok ((List.range 65).drop 1 ++ (List.range 65).take 1) ∧
    ledgerFinalizeSig [1, 2, 3] = .error .invalidSignatureLength :=
  ⟨signature_envelope_amended.1 (List.range 65) (by decide),
   signature_envelope_amended.2.1 [1, 2, 3] (by decide)⟩

/-- C3: resolver behaviour on the spec's example expressions, the
success bound for explicitly sized widths, and the unknown-type case. -/
theorem parseType_resolution_spec :
    parseType emptyDoc ⟨"f", "uint"⟩ = .ok ⟨.UintType, "uint", 32, []⟩ ∧
    parseType emptyDoc ⟨"f", "uint8"⟩ = .ok ⟨.UintType, "uint", 1, []⟩ ∧
    parseType emptyDoc ⟨"f", "bytes32"⟩ = .ok ⟨.FixedBytesType, "bytes", 32, []⟩ ∧
    parseType emptyDoc ⟨"f", "bytes"⟩ = .ok ⟨.BytesType, "bytes", 0, []⟩ ∧
    parseType emptyDoc ⟨"f", "address"⟩ = .ok ⟨.AddressType, "address", 20, []⟩ ∧
    parseType emptyDoc ⟨"f", "uint256[3][]"⟩ = .ok ⟨.UintType, "uint", 32, [some 3, none]⟩ ∧
    parseType emptyDoc ⟨"f", "uint7"⟩ = .error .invalidLength ∧
    parseType emptyDoc ⟨"f", "uint264"⟩ = .error .invalidLength ∧
    parseType emptyDoc ⟨"f", "bytes33"⟩ = .error .invalidLength ∧
    parseType emptyDoc ⟨"f", "bytes0"⟩ = .error .invalidLength ∧
    (∀ (d : TypedData) (f : EipField) (pt : ParsedType), parseType d f = .ok pt →
      pt.dt = .IntType ∨ pt.dt = .UintType ∨ pt.dt = .FixedBytesType →
      1 ≤ pt.byteLength ∧ pt.byteLength ≤ 32) ∧
    (∀ d : TypedData, lookupTypes d "foo" = none →
      parseType d ⟨"x", "foo"⟩ = .error .unknownType) ∧
    parseType emptyDoc ⟨"f", "address2"⟩ = .error .invalidType ∧
    parseType emptyDoc ⟨"f", "bool1"⟩ = .error .invalidType ∧
    parseType emptyDoc ⟨"f", "string8"⟩ = .error .invalidType := by
  refine ⟨by decide, by decide, by decide, by decide, by decide, by decide, by decide,
    by decide, by decide, by decide, ?_, ?_, by decide, by decide, by decide⟩
  · intro d f pt h hdt
    exact classifyBase_sized_bounds d _ _ pt h hdt
  · intro d h
    show classifyBase d "foo".data [] = .error .unknownType
    unfold classifyBase
    rw [show (⟨"foo".data⟩ : String) = "foo" from rfl, h]
    decide

/-- C3, witness: the universal conjuncts applied at concrete inputs. -/
theorem parseType_resolution_spec_witness :
    parseType mailDoc ⟨"x", "foo"⟩ = .error .unknownType ∧ 1 ≤ 4 ∧ 4 ≤ 32 :=
  ⟨parseType_resolution_spec.2.2.2.2.2.2.2.2.2.2.2.1 mailDoc (by decide),
   (parseType_resolution_spec.2.2.2.2.2.2.2.2.2.2.1 emptyDoc ⟨"f", "uint32"⟩
      ⟨.UintType, "uint", 4, []⟩ (by decide) (by decide)).1,
   (parseType_resolution_spec.2.2.2.2.2.2.2.2.2.2.1 emptyDoc ⟨"f", "uint32"⟩
      ⟨.UintType, "uint", 4, []⟩ (by decide) (by decide)).2⟩

/-- C4 counterexample: for type `uint32` with value `5`, the Family-A
leaf payload minus its 2-byte length prefix is `[0x05]`, while the
Family-B reply is zero-padded to the declared 4-byte width. -/
theorem leaf_encoders_disagree_cex :
    parseType emptyDoc ⟨"f", "uint32"⟩ = .ok ⟨.UintType, "uint", 4, []⟩ ∧
    ledgerLeafEnc "uint32" (.num 5) = .ok [0x05] ∧
    trezorLeafEnc .UintType 4 (.prim (.num 5)) = .ok [0x00, 0x00, 0x00, 0x05] ∧
    ([0x00, 0x00, 0x00, 0x05] : List Nat) ≠ [0x05] := by decide

/-- C4 amended: the two leaf encoders agree byte-for-byte on string
leaves, boolean leaves and 0x-prefixed even-length hex on dynamic
bytes; on numeric/address/fixed-bytes leaves the Family-B reply is the
Family-A raw encoding left-padded with zeros to the declared byte
width (so they agree exactly when the magnitude already fills the
width, and differ otherwise). -/
theorem leaf_encoders_amended :
    (∀ (s : String) (w : Nat),
      ledgerLeafEnc "string" (.str s) = .ok (utf8Bytes s) ∧
      trezorLeafEnc .StringType w (.prim (.str s)) = .ok (utf8Bytes s)) ∧
    (∀ (b : Bool) (t : String) (w : Nat),
      ledgerLeafEnc t (.boolean b) = .ok (if b then [1] else [0]) ∧
      trezorLeafEnc .BoolType w (.prim (.boolean b)) = .ok (if b then [1] else [0])) ∧
    (∀ (n : Int) (t : String) (w : Nat) (dt : DataType),
      dt = .IntType ∨ dt = .UintType ∨ dt = .AddressType ∨ dt = .FixedBytesType →
      (intMagBytes n).length ≤ w →
      ledgerLeafEnc t (.num n) = .ok (intMagBytes n) ∧
      trezorLeafEnc dt w (.prim (.num n)) =
        .ok (List.replicate (w - (intMagBytes n).length) 0 ++ intMagBytes n)) ∧
    (∀ (cs : List Char) (bs : List Nat) (w : Nat), hexDecodeStrictL cs = some bs →
      ledgerLeafEnc "bytes" (.str ⟨'0' :: 'x' :: cs⟩) = .ok bs ∧
      trezorLeafEnc .BytesType w (.prim (.str ⟨'0' :: 'x' :: cs⟩)) = .ok bs) := by
  refine ⟨fun s w => ⟨rfl, rfl⟩, fun b t w => ⟨rfl, rfl⟩, ?_, ?_⟩
  · intro n t w dt hdt hlen
    refine ⟨rfl, ?_⟩
    rcases hdt with h | h | h | h <;> subst h <;>
      simp only [trezorLeafEnc, trezorNumericBytes] <;>
      rw [if_neg (show ¬(intMagBytes n).length > w by omega)]
  · intro cs bs w h
    have hlen : ¬(cs.length % 2 = 1) := by
      have := hexDecodeStrictL_even cs bs h
      omega
    have hstrip : stripHexPrefix ('0' :: 'x' :: cs) = cs := by
      unfold stripHexPrefix
      rw [if_pos (show List.take 2 ('0' :: 'x' :: cs) = ['0', 'x'] ∨
        List.take 2 ('0' :: 'x' :: cs) = ['0', 'X'] from Or.inl rfl)]
      rfl
    have hfrom : fromHex ⟨'0' :: 'x' :: cs⟩ = bs := by
      show fromHexL ('0' :: 'x' :: cs) = bs
      unfold fromHexL
      rw [hstrip]
      unfold padOdd
      rw [if_neg hlen]
      exact hex2Bytes_of_strict cs bs h
    constructor
    · show (match hexDecodeStrictL cs with
        | some bs2 => (Except.ok bs2 : Except LedgerErr (List Nat))
        | none => Except.error LedgerErr.badHexString) = Except.ok bs
      rw [h]
    · show (Except.ok (fromHex ⟨'0' :: 'x' :: cs⟩) : Except TrezorErr (List Nat)) = .ok bs
      rw [hfrom]

/-- C4 amended, witness at concrete inputs. -/
theorem leaf_encoders_amended_witness :
    (ledgerLeafEnc "t" (.num 1) = .ok [1] ∧
      trezorLeafEnc .UintType 2 (.prim (.num 1)) = .ok [0, 1]) ∧
    (ledgerLeafEnc "bytes" (.str "0x1234") = .ok [0x12, 0x34] ∧
      trezorLeafEnc .BytesType 0 (.prim (.str "0x1234")) = .ok [0x12, 0x34]) :=
  ⟨by
    have := leaf_encoders_amended.2.2.1 1 "t" 2 .UintType (by decide) (by decide)
    simpa using this,
   by
    have := leaf_encoders_amended.2.2.2 ['1', '2', '3', '4'] [0x12, 0x34] 0 (by decide)
    simpa using this⟩

/-- C5: value-query resolution: on the Mail document path [1,0]
resolves to the single byte 0x78 and path [1,5] fails; the first index
selects the domain (0) or the primary-type message (otherwise); a
field index at or beyond the field count and an array index at or
beyond the array length fail; and a path terminating exactly at an
array node replies with the element count as 2 big-endian bytes. -/
theorem value_query_resolution :
    resolveValueQuery mailDoc [1, 0] = .ok ([0x78], false, 0) ∧
    resolveValueQuery mailDoc [1, 5] = .error .invalidFieldIndex ∧
    (∀ (d : TypedData) (q : Nat) (rest : List Nat),
      resolveValueQuery d (0 :: q :: rest) =
        walkFields (rest.length + 2) d (lookupTypes d "EIP712Domain") d.domain q rest
          false 0) ∧
    (∀ (d : TypedData) (p0 q : Nat) (rest : List Nat), p0 ≠ 0 →
      resolveValueQuery d (p0 :: q :: rest) =
        walkFields (rest.length + 2) d (lookupTypes d d.primaryType) d.message q rest
          false 0) ∧
    (∀ (fuel : Nat) (d : TypedData) (fields : List EipField)
      (sv : List (String × TValue)) (p : Nat) (rest : List Nat) (b : Bool) (c : Nat),
      fields.length ≤ p →
      walkFields (fuel + 1) d (some fields) sv p rest b c = .error .invalidFieldIndex) ∧
    (∀ (dims : Nat) (xs : List TValue) (rest : List Nat) (cnt j : Nat), xs.length ≤ j →
      descendArrays (dims + 1) (some (.arr xs)) (j :: rest) cnt =
        .error .invalidArrayIndex) ∧
    (∀ xs : List TValue, xs.length < 65536 →
      resolveValueQuery (arrDoc xs) [1, 0] =
        .ok ([xs.length / 256, xs.length % 256], false, 0)) ∧
    resolveValueQuery (arrDoc [.prim (.num 7)]) [1, 0, 5] = .error .invalidArrayIndex := by
  refine ⟨by decide, by decide, fun d q rest => rfl, ?_, ?_, ?_, ?_, by decide⟩
  · intro d p0 q rest h
    cases p0 with
    | zero => exact absurd rfl h
    | succ k => rfl
  · intro fuel d fields sv p rest b c h
    exact dif_neg (Nat.not_lt.mpr h)
  · intro dims xs rest cnt j h
    exact dif_neg (Nat.not_lt.mpr h)
  · intro xs h
    have hv : resolveValueQuery (arrDoc xs) [1, 0] = .ok (uint16BE xs.length, false, 0) := rfl
    rw [hv]
    simp [uint16BE, Nat.mod_eq_of_lt h]

/-- C5, witness: the universally quantified conjuncts at concrete
inputs. -/
theorem value_query_resolution_witness :
    resolveValueQuery mailDoc (2 :: 0 :: []) =
      walkFields 2 mailDoc (lookupTypes mailDoc mailDoc.primaryType) mailDoc.message
        0 [] false 0 ∧
    walkFields 1 mailDoc (some []) [] 0 [] false 0 = .error .invalidFieldIndex ∧
    descendArrays 1 (some (.arr [])) [0] 0 = .error .invalidArrayIndex ∧
    resolveValueQuery (arrDoc [.prim (.num 7)]) [1, 0] = .ok ([0, 1], false, 0) :=
  ⟨value_query_resolution.2.2.2.1 mailDoc 2 0 [] (by decide),
   value_query_resolution.2.2.2.2.1 0 mailDoc [] [] 0 [] false 0 (by decide),
   value_query_resolution.2.2.2.2.2.1 0 [] [] 0 0 (by decide),
   value_query_resolution.2.2.2.2.2.2.1 [.prim (.num 7)] (by decide)⟩

/-- C6: schema errors are raised without touching the transport: the
Family-A engine reports a missing `EIP712Domain` or primary type with
an empty exchange trace, and a Family-B struct-type query for an
undeclared or field-less struct fails after only the exchange that
delivered the query. -/
theorem schema_errors_before_transport :
    (∀ (d : TypedData) (path : List Nat) (fuel : Nat) (reply : List Nat),
      lookupTypes d "EIP712Domain" = none →
      ledgerSignTypedDataRun d path fuel reply = (.error .domainTypeMissing, [])) ∧
    (∀ (d : TypedData) (path : List Nat) (fuel : Nat) (reply : List Nat)
      (fs : List EipField), lookupTypes d "EIP712Domain" = some fs →
      lookupTypes d d.primaryType = none →
      ledgerSignTypedDataRun d path fuel reply = (.error .primaryTypeMissing, [])) ∧
    (∀ (d : TypedData) (n : String) (rest : List TResp) (b : Bool),
      (lookupTypes d n).getD [] = [] →
      trezorLoop d (.structQ n :: rest) b = (.error (.schemaNoFields n), 1)) := by
  refine ⟨?_, ?_, ?_⟩
  · intro d path fuel reply h
    unfold ledgerSignTypedDataRun
    rw [h]
  · intro d path fuel reply fs h1 h2
    unfold ledgerSignTypedDataRun
    rw [h1, h2]
  · intro d n rest b h
    simp only [trezorLoop]
    rw [h]

/-- C6, witness: concrete documents missing the domain type, the
primary type, and a queried struct. -/
theorem schema_errors_before_transport_witness :
    ledgerSignTypedDataRun emptyDoc [] 5 [] = (.error .domainTypeMissing, []) ∧
    ledgerSignTypedDataRun noPrimaryDoc [] 5 [] = (.error .primaryTypeMissing, []) ∧
    trezorLoop mailDoc [.structQ "Nope"] false = (.error (.schemaNoFields "Nope"), 1) :=
  ⟨schema_errors_before_transport.1 emptyDoc [] 5 [] (by decide),
   schema_errors_before_transport.2.1 noPrimaryDoc [] 5 [] [⟨"name", "string"⟩]
     (by decide) (by decide),
   schema_errors_before_transport.2.2 mailDoc "Nope" [] false (by decide)⟩

/-- C7: Family-A value emission for struct `{a:uint8, b:string}` with
value `{a:5, b:"hi"}` sends exactly two struct-field-value messages
with payloads `00 01 05` and `00 02 68 69` in that order, and no
array-length (P2 = 0x0f) messages. -/
theorem phase2_value_emission_example :
    sendValueRun fieldPairDoc 10 "T" (.obj fieldPairDoc.message) =
      (.ok (), [⟨0x1c, 0x00, 0xff, [0x00, 0x01, 0x05]⟩,
        ⟨0x1c, 0x00, 0xff, [0x00, 0x02, 0x68, 0x69]⟩]) ∧
    ((sendValueRun fieldPairDoc 10 "T" (.obj fieldPairDoc.message)).2.countP
      (fun m => m.p2 == 0x0f)) = 0 := by decide

/-- C8 counterexample: on a field of type `uint8[1][1]` a value query
that terminates at the array node performs zero element descents, yet
the walker records the nested-array flag (the type has two dimensions)
and upgrades the following firmware-limitation failure to the
nested-arrays error — the flag does not require an actual descent
through more than one dimension. -/
theorem nested_array_flag_without_descent_cex :
    resolveValueQuery nestedArrDoc [1, 0] = .ok ([0, 1], true, 0) ∧
    trezorLoop nestedArrDoc [.valueQ [1, 0], .failMsg (some .firmwareError)] false =
      (.error .nestedArraysUnsupported, 2) := by decide

/-- C8 amended: the nested-arrays error is surfaced iff the flag from
the preceding iteration is set and the exchange fails with the
firmware-limitation code — where the flag is set when the preceding
value-query resolution encountered a field whose type carries more
than one array dimension (whether or not any element descent
happened), and is cleared after every successful exchange; any other
failure surfaces the generic error unchanged. -/
theorem nested_array_error_amended :
    (∀ (d : TypedData) (rest : List TResp) (nested : Bool) (code : Option TrezorFailCode),
      (trezorLoop d (.failMsg code :: rest) nested).1 = .error .nestedArraysUnsupported ↔
        nested = true ∧ code = some .firmwareError) ∧
    (∀ (d : TypedData) (rest : List TResp) (nested : Bool) (code : Option TrezorFailCode),
      ¬(nested = true ∧ code = some .firmwareError) →
      trezorLoop d (.failMsg code :: rest) nested = (.error (.deviceFailure code), 1)) ∧
    (∀ (d : TypedData) (rest : List TResp) (nested : Bool) (path : List Nat)
      (v : List Nat) (nf : Bool) (ds : Nat), resolveValueQuery d path = .ok (v, nf, ds) →
      trezorLoop d (.valueQ path :: rest) nested =
        ((trezorLoop d rest nf).1, (trezorLoop d rest nf).2 + 1)) ∧
    (∀ (d : TypedData) (rest : List TResp) (nested : Bool) (n : String)
      (f : EipField) (fs : List EipField) (ack : List (String × FieldTypeTree)),
      lookupTypes d n = some (f :: fs) → buildStructAck d (f :: fs) = .ok ack →
      trezorLoop d (.structQ n :: rest) nested =
        ((trezorLoop d rest false).1, (trezorLoop d rest false).2 + 1)) ∧
    (∀ (d : TypedData) (rest : List TResp) (nested : Bool),
      trezorLoop d (.errOther :: rest) nested = (.error .otherTransportError, 1)) := by
  refine ⟨?_, ?_, ?_, ?_, fun _ _ _ => rfl⟩
  · intro d rest nested code
    simp only [trezorLoop]
    by_cases hc : nested = true ∧ code = some .firmwareError
    · rw [if_pos hc]
      simp [hc]
    · rw [if_neg hc]
      simp [hc]
  · intro d rest nested code hc
    simp only [trezorLoop]
    rw [if_neg hc]
  · intro d rest nested path v nf ds h
    simp only [trezorLoop]
    rw [h]
  · intro d rest nested n f fs ack h1 h2
    simp only [trezorLoop]
    rw [h1]
    simp only [Option.getD_some]
    rw [h2]

/-- C8 amended, witness at concrete inputs. -/
theorem nested_array_error_amended_witness :
    (trezorLoop mailDoc [.failMsg (some .firmwareError)] true).1 =
      .error .nestedArraysUnsupported ∧
    trezorLoop mailDoc [.failMsg (some .firmwareError)] false =
      (.error (.deviceFailure (some .firmwareError)), 1) ∧
    trezorLoop mailDoc [.valueQ [1, 0], .sig [9]] false = (.ok [9], 2) :=
  ⟨(nested_array_error_amended.1 mailDoc [] true (some .firmwareError)).mpr ⟨rfl, rfl⟩,
   nested_array_error_amended.2.1 mailDoc [] false (some .firmwareError) (by simp),
   (nested_array_error_amended.2.2.1 mailDoc [.sig [9]] false [1, 0] [0x78] false 0
     (by decide)).trans (by decide)⟩

/-- C9: on major firmware version 1, Family-B typed-data signing never
enters the interactive protocol: the outcome is the legacy hash-sign
call with domainHash = digest[2:34] and messageHash = digest[34:66],
exactly, for any 66-byte digest; the legacy outcome is distinct from
every interactive outcome. -/
theorem trezor_legacy_fallback :
    (∀ (v2 v3 : Nat) (digest : List Nat) (d : TypedData) (script : List TResp),
      digest.length = 66 →
      trezorSignedTypedData false (1, v2, v3) digest d script =
        .legacy ((digest.drop 2).take 32) ((digest.drop 34).take 32)) ∧
    (∀ (x y : List Nat) (r : Except TrezorErr (List Nat)) (c : Nat),
      TrezorSignOutcome.legacy x y ≠ .interactive r c) := by
  constructor
  · intro v2 v3 digest d script h
    rfl
  · intro x y r c
    simp

/-- C9, witness on a concrete 66-byte digest. -/
theorem trezor_legacy_fallback_witness :
    trezorSignedTypedData false (1, 0, 0) (List.range 66) mailDoc [] =
      .legacy ((List.range 66).drop 2 |>.take 32) ((List.range 66).drop 34 |>.take 32) :=
  trezor_legacy_fallback.1 0 0 (List.range 66) mailDoc [] (by decide)

/-- C10: a value query with an empty member path reaches the unguarded
`MemberPath[0]` access: in the total embedding this is the
out-of-bounds marker, reachable from a device message, and distinct
from the protocol/schema error constructors. -/
theorem empty_member_path_panic :
    (∀ d : TypedData, resolveValueQuery d [] = .error .panicIndexOutOfRange) ∧
    (∀ (d : TypedData) (rest : List TResp) (b : Bool),
      trezorLoop d (.valueQ [] :: rest) b = (.error .panicIndexOutOfRange, 1)) ∧
    TrezorErr.panicIndexOutOfRange ≠ .otherTransportError ∧
    (∀ n : String, TrezorErr.panicIndexOutOfRange ≠ .schemaNoFields n) := by
  refine ⟨fun d => rfl, fun d rest b => rfl, by decide, fun n => by simp⟩
